import Mathlib

/-!
Verification of the context-manager demonstration in
`Tips/2016-03-23-With-Context-Manager.ipynb`.

The notebook defines a shared mutable dictionary
`_G = {"counter": 99, "user": "admin"}`, a class-based context manager
`Refs` (capturing `_G['counter']` in `__init__`, restoring it and
returning `False` in `__exit__`, with `acc`/`dec` mutators), and a
generator-based context manager `ref()` built with
`contextlib.contextmanager` (capturing the counter before `yield _G` and
restoring it after the yield).

The embedding models the Python dictionary as an association list of
string keys to dynamically typed values, the with-statement execution
order as the notebook's own five-step description of it, and the
`contextlib` wrapping of the generator (where the code after the yield
runs only when the body completes normally, because an exception raised
in the body is thrown into the generator at the yield point and nothing
in `ref` catches it).
-/

/-- A dynamically typed Python value: the demonstration only ever stores
integers and strings in the shared dictionary. -/
inductive Val where
  | intV : Int → Val
  | strV : String → Val
deriving DecidableEq

/-- The shared dictionary `_G`: an insertion-ordered association list of
string keys to values. -/
def GDict : Type := List (String × Val)

instance : DecidableEq GDict := by
  unfold GDict
  infer_instance

/-- Dictionary lookup `g[key]`: the value at the first matching key, or
`none` (a Python `KeyError`) when the key is absent. -/
def dictGet : GDict → String → Option Val
  | [], _ => none
  | (k, v) :: rest, key => if k = key then some v else dictGet rest key

/-- Dictionary assignment `g[key] = v`: replaces the value at an existing
key in place (keeping insertion order), or appends a new entry. -/
def dictSet : GDict → String → Val → GDict
  | [], key, v => [(key, v)]
  | (k, w) :: rest, key, v =>
      if k = key then (key, v) :: rest else (k, w) :: dictSet rest key v

/-- The keys of the dictionary in insertion order. -/
def keysOf (g : GDict) : List String := g.map Prod.fst

/-- The initial shared state of both demonstration cells:
`_G = {"counter": 99, "user": "admin"}`. -/
def initG : GDict := [("counter", Val.intV 99), ("user", Val.strV "admin")]

theorem dictGet_dictSet_self (g : GDict) (k : String) (v : Val) :
    dictGet (dictSet g k v) k = some v := by
  induction g with
  | nil => simp [dictGet, dictSet]
  | cons p rest ih =>
      obtain ⟨a, b⟩ := p
      by_cases h : a = k
      · simp [dictGet, dictSet, h]
      · simp [dictGet, dictSet, h, ih]

theorem dictGet_dictSet_ne (g : GDict) (k k' : String) (v : Val)
    (h : k ≠ k') : dictGet (dictSet g k v) k' = dictGet g k' := by
  induction g with
  | nil => simp [dictGet, dictSet, h]
  | cons p rest ih =>
      obtain ⟨a, b⟩ := p
      by_cases hak : a = k
      · subst hak
        simp [dictGet, dictSet, h]
      · simp [dictGet, dictSet, hak, ih]

theorem dictSet_dictSet (g : GDict) (k : String) (v w : Val) :
    dictSet (dictSet g k v) k w = dictSet g k w := by
  induction g with
  | nil => simp [dictSet]
  | cons p rest ih =>
      obtain ⟨a, b⟩ := p
      by_cases hak : a = k
      · simp [dictSet, hak]
      · simp [dictSet, hak, ih]

theorem dictSet_eq_self_of_dictGet (g : GDict) (k : String) (v : Val)
    (h : dictGet g k = some v) : dictSet g k v = g := by
  induction g with
  | nil => simp [dictGet] at h
  | cons p rest ih =>
      obtain ⟨a, b⟩ := p
      by_cases hak : a = k
      · subst hak
        simp [dictGet] at h
        simp [dictSet, h]
      · simp [dictGet, hak] at h
        simp [dictSet, hak, ih h]

theorem keysOf_dictSet (g : GDict) (k : String) (v w : Val)
    (h : dictGet g k = some w) : keysOf (dictSet g k v) = keysOf g := by
  induction g with
  | nil => simp [dictGet] at h
  | cons p rest ih =>
      obtain ⟨a, b⟩ := p
      by_cases hak : a = k
      · subst hak
        simp [dictSet, keysOf]
      · simp [dictGet, hak] at h
        simp [dictSet, keysOf, hak] at ih ⊢
        exact ih h

/-- The class `Refs` from the notebook. `__init__(self, name=None)` stores
the name, aliases the shared dictionary (`self._G = _G`, modelled by
passing the shared state explicitly to every method), and captures
`self.init = self._G['counter']` at construction time. -/
structure Refs where
  name : Option String
  init : Val
deriving DecidableEq

/-- Construction `Refs(name)`: reads `_G['counter']` (a `KeyError`, hence
`none`, when the key is absent) and stores it in the `init` field. The
shared state is not modified. -/
def Refs.make (name : Option String) (g : GDict) : Option Refs :=
  (dictGet g "counter").map (fun v => ⟨name, v⟩)

/-- The method `__enter__(self)`: returns `self` and does not touch the
shared state. -/
def Refs.enter (r : Refs) : Refs := r

/-- The method `__exit__(self, *args)`: assigns the remembered initial
value back to `_G["counter"]` and returns `False`. The exception
information argument is ignored, as `*args` is in the source. -/
def Refs.exit (r : Refs) (_excRaised : Bool) (g : GDict) : GDict × Bool :=
  (dictSet g "counter" r.init, false)

/-- The method `acc(self, n=1)`: `self._G["counter"] += n`. Reads the
counter (failing, as Python would with `KeyError`/`TypeError`, when it is
absent or not an integer) and writes back the sum. The `self` argument is
unused because `acc` touches only the shared state. -/
def Refs.acc (_r : Refs) (n : Int) (g : GDict) : Option GDict :=
  match dictGet g "counter" with
  | some (Val.intV c) => some (dictSet g "counter" (Val.intV (c + n)))
  | _ => none

/-- The method `dec(self, n=1)`: `self._G["counter"] -= n`. -/
def Refs.dec (_r : Refs) (n : Int) (g : GDict) : Option GDict :=
  match dictGet g "counter" with
  | some (Val.intV c) => some (dictSet g "counter" (Val.intV (c - n)))
  | _ => none

/-- One counter mutation performed inside a with body: `acc n` / `dec n`
(also covering the direct `r["counter"] += n` and `r["counter"] -= n`
writes of the generator cell) or a direct write `r["counter"] = n`. -/
inductive Mut where
  | acc : Int → Mut
  | dec : Int → Mut
  | setC : Int → Mut
deriving DecidableEq

/-- Applies one mutation to the shared state; `none` is a raised
`KeyError`/`TypeError`. -/
def applyMut : Mut → GDict → Option GDict
  | Mut.acc n, g =>
      match dictGet g "counter" with
      | some (Val.intV c) => some (dictSet g "counter" (Val.intV (c + n)))
      | _ => none
  | Mut.dec n, g =>
      match dictGet g "counter" with
      | some (Val.intV c) => some (dictSet g "counter" (Val.intV (c - n)))
      | _ => none
  | Mut.setC n, g => some (dictSet g "counter" (Val.intV n))

/-- The result of running a with-statement body: it either completes
normally in some state or raises an exception in some state. -/
inductive BodyResult (σ : Type) where
  | ok : σ → BodyResult σ
  | exc : σ → BodyResult σ
deriving DecidableEq

/-- The state a body ended in, on either path. -/
def bodyState {σ : Type} : BodyResult σ → σ
  | BodyResult.ok s => s
  | BodyResult.exc s => s

/-- Runs a list of mutations in order; a failing mutation raises at that
point, leaving the state as it was after the mutations already applied. -/
def applyMuts : List Mut → GDict → BodyResult GDict
  | [], g => BodyResult.ok g
  | m :: rest, g =>
      match applyMut m g with
      | some g2 => applyMuts rest g2
      | none => BodyResult.exc g

/-- A with body consisting of a sequence of counter mutations, optionally
followed by an explicit raise (`raises = true`). -/
def mutBody (muts : List Mut) (raises : Bool) (g : GDict) : BodyResult GDict :=
  match applyMuts muts g with
  | BodyResult.ok g2 => if raises then BodyResult.exc g2 else BodyResult.ok g2
  | BodyResult.exc g2 => BodyResult.exc g2

/-- How control leaves a with statement: normal continuation after the
block, or an exception propagating to the enclosing scope. -/
inductive Outcome (σ : Type) where
  | normal : σ → Outcome σ
  | raised : σ → Outcome σ
deriving DecidableEq

/-- The shared state when control leaves the with statement. -/
def outState {σ : Type} : Outcome σ → σ
  | Outcome.normal s => s
  | Outcome.raised s => s

/-- The with-statement execution order as the notebook describes it:
run `__enter__` and bind its value, run the body, then run `__exit__` on
every exit path, telling it whether an exception is in flight; when the
body raised, a true return value of `__exit__` suppresses the exception
and control continues normally, a false return value re-raises it to the
enclosing scope. -/
def runWith {σ α : Type} (enter : σ → α × σ) (body : α → σ → BodyResult σ)
    (exitFn : Bool → σ → σ × Bool) (s : σ) : Outcome σ :=
  match body (enter s).1 (enter s).2 with
  | BodyResult.ok s2 => Outcome.normal (exitFn false s2).1
  | BodyResult.exc s2 =>
      if (exitFn true s2).2 then Outcome.normal (exitFn true s2).1
      else Outcome.raised (exitFn true s2).1

/-- The explicit `try: acquire; body finally: release` pattern of the
notebook's second cell: release runs unconditionally, and an exception in
the body always propagates afterwards. -/
def tryFinallyRun {σ α : Type} (acquire : σ → α × σ)
    (body : α → σ → BodyResult σ) (release : σ → σ) (s : σ) : Outcome σ :=
  match body (acquire s).1 (acquire s).2 with
  | BodyResult.ok s2 => Outcome.normal (release s2)
  | BodyResult.exc s2 => Outcome.raised (release s2)

/-- The `__exit__` step that `contextlib.contextmanager` derives from the
generator `ref`: on normal completion the generator resumes past the
yield and runs `_G["counter"] = counter`, then the exception slot is
empty; when the body raised, the exception is thrown into the generator
at the yield point, nothing in `ref` catches it, so the restore line
never runs and the exception propagates (a false suppression signal). -/
def refExitStep (captured : Val) (excRaised : Bool) (g : GDict) :
    GDict × Bool :=
  if excRaised then (g, false) else (dictSet g "counter" captured, false)

/-- A full with-scope over a fresh `Refs` handle, entered immediately
after construction: `with Refs(...) as r: <mutations; maybe raise>`. -/
def refsWithScope (muts : List Mut) (raises : Bool) (g : GDict) :
    Option (Outcome GDict) :=
  (Refs.make none g).map (fun r =>
    runWith (fun s => (Refs.enter r, s))
      (fun _ s => mutBody muts raises s) (Refs.exit r) g)

/-- A full with-scope over the generator-based manager:
`with ref() as r: <mutations; maybe raise>`. Entering advances the
generator to the yield, which reads `counter = _G["counter"]`; the
yielded value is the shared dictionary itself (an alias of the shared
state, so body mutations act on the state directly). -/
def refWithScope (muts : List Mut) (raises : Bool) (g : GDict) :
    Option (Outcome GDict) :=
  (dictGet g "counter").map (fun captured =>
    runWith (fun s => ((), s))
      (fun _ s => mutBody muts raises s) (refExitStep captured) g)

theorem runWith_ok_eq {σ α : Type} (enter : σ → α × σ)
    (body : α → σ → BodyResult σ) (exitFn : Bool → σ → σ × Bool) (s s2 : σ)
    (h : body (enter s).1 (enter s).2 = BodyResult.ok s2) :
    runWith enter body exitFn s = Outcome.normal (exitFn false s2).1 := by
  simp [runWith, h]

theorem runWith_exc_eq {σ α : Type} (enter : σ → α × σ)
    (body : α → σ → BodyResult σ) (exitFn : Bool → σ → σ × Bool) (s s2 : σ)
    (h : body (enter s).1 (enter s).2 = BodyResult.exc s2) :
    runWith enter body exitFn s =
      if (exitFn true s2).2 then Outcome.normal (exitFn true s2).1
      else Outcome.raised (exitFn true s2).1 := by
  simp [runWith, h]

theorem refs_scope_state_eq (r : Refs)
    (body : Refs → GDict → BodyResult GDict) (g : GDict) :
    outState (runWith (fun s => (Refs.enter r, s)) body (Refs.exit r) g)
      = dictSet (bodyState (body (Refs.enter r) g)) "counter" r.init := by
  cases h : body (Refs.enter r) g with
  | ok s2 =>
      rw [runWith_ok_eq _ _ _ _ s2 h]
      simp [outState, bodyState, Refs.exit]
  | exc s2 =>
      rw [runWith_exc_eq _ _ _ _ s2 h]
      simp [outState, bodyState, Refs.exit]

theorem applyMuts_ok_of_int (muts : List Mut) :
    ∀ (g : GDict) (c : Int), dictGet g "counter" = some (Val.intV c) →
    ∃ g2 c2, applyMuts muts g = BodyResult.ok g2 ∧
      dictGet g2 "counter" = some (Val.intV c2) := by
  induction muts with
  | nil => exact fun g c h => ⟨g, c, rfl, h⟩
  | cons m rest ih =>
      intro g c h
      cases m with
      | acc n =>
          obtain ⟨g2, c2, h2, h3⟩ :=
            ih (dictSet g "counter" (Val.intV (c + n))) (c + n)
              (dictGet_dictSet_self g "counter" _)
          exact ⟨g2, c2, by simp [applyMuts, applyMut, h, h2], h3⟩
      | dec n =>
          obtain ⟨g2, c2, h2, h3⟩ :=
            ih (dictSet g "counter" (Val.intV (c - n))) (c - n)
              (dictGet_dictSet_self g "counter" _)
          exact ⟨g2, c2, by simp [applyMuts, applyMut, h, h2], h3⟩
      | setC n =>
          obtain ⟨g2, c2, h2, h3⟩ :=
            ih (dictSet g "counter" (Val.intV n)) n
              (dictGet_dictSet_self g "counter" _)
          exact ⟨g2, c2, by simp [applyMuts, applyMut, h2], h3⟩

/-- Whether the `"counter"` entry exists and is numeric. -/
def counterIsInt (g : GDict) : Bool :=
  match dictGet g "counter" with
  | some (Val.intV _) => true
  | _ => false

/-- Whether the `"user"` entry exists and is a string. -/
def userIsStr (g : GDict) : Bool :=
  match dictGet g "user" with
  | some (Val.strV _) => true
  | _ => false

/-- The shape of the shared dictionary throughout the demonstration: it
holds exactly the two keys `"counter"` and `"user"` (in that insertion
order, as in `_G`), the counter is numeric, and the owner is a string. -/
def wellFormed (g : GDict) : Prop :=
  keysOf g = ["counter", "user"] ∧ counterIsInt g = true ∧ userIsStr g = true

theorem counterIsInt_iff (g : GDict) :
    counterIsInt g = true ↔
    ∃ c : Int, dictGet g "counter" = some (Val.intV c) := by
  unfold counterIsInt
  cases h : dictGet g "counter" with
  | none => simp
  | some v => cases v with
      | intV c => simp
      | strV s => simp

theorem wellFormed_dictSet_counter (g : GDict) (c : Int)
    (h : wellFormed g) : wellFormed (dictSet g "counter" (Val.intV c)) := by
  obtain ⟨hk, hc, hu⟩ := h
  obtain ⟨c0, hc0⟩ := (counterIsInt_iff g).mp hc
  refine ⟨?_, ?_, ?_⟩
  · rw [keysOf_dictSet g "counter" _ _ hc0]
    exact hk
  · rw [counterIsInt_iff]
    exact ⟨c, dictGet_dictSet_self g "counter" _⟩
  · unfold userIsStr at hu ⊢
    rw [dictGet_dictSet_ne g "counter" "user" _ (by decide)]
    exact hu

/-- C6: the with-statement form of scoped resource use is semantically
equivalent to the explicit acquire/attempt/guaranteed-release pattern
(`try` body with unconditional release in `finally`): for every
acquisition, every body that completes normally or raises, and every
release (run by `__exit__` with a false suppression signal, as the
notebook's managers do), both forms perform the same acquisition, the
same body effects, and the same release, and propagate exceptions
identically. -/
theorem with_statement_equiv_try_finally {σ α : Type} (acquire : σ → α × σ)
    (body : α → σ → BodyResult σ) (release : σ → σ) (s : σ) :
    runWith acquire body (fun _ t => (release t, false)) s
      = tryFinallyRun acquire body release s := by
  cases h : body (acquire s).1 (acquire s).2 with
  | ok s2 => simp [runWith, tryFinallyRun, h]
  | exc s2 => simp [runWith, tryFinallyRun, h]

/-- C3: when the body of a with statement raises, the boolean returned by
`__exit__` decides the exception's fate: a true value suppresses it and
control continues normally after the scope, a false value re-raises the
exception to the enclosing scope. -/
theorem exit_bool_decides_exception_fate {σ α : Type} (enter : σ → α × σ)
    (body : α → σ → BodyResult σ) (exitFn : Bool → σ → σ × Bool) (s s2 : σ)
    (h : body (enter s).1 (enter s).2 = BodyResult.exc s2) :
    runWith enter body exitFn s =
      if (exitFn true s2).2 then Outcome.normal (exitFn true s2).1
      else Outcome.raised (exitFn true s2).1 :=
  runWith_exc_eq enter body exitFn s s2 h

/-- Witness for C3 at a concrete raising body: an exit step returning
true suppresses the exception and control continues normally. -/
theorem exit_bool_decides_exception_fate_witness :
    runWith (fun s : GDict => ((), s)) (fun _ s => BodyResult.exc s)
      (fun _ s => (s, true)) initG = Outcome.normal initG := by
  have h := exit_bool_decides_exception_fate (fun s : GDict => ((), s))
    (fun _ s => BodyResult.exc s) (fun _ s => (s, true)) initG initG rfl
  simpa using h

/-- C2: for every with-scope of a `Refs` handle, the release step
`Refs.exit` executes on every exit path: whether the body completed
normally or raised, the state in which control leaves the scope is the
body's final state with the remembered initial value assigned back to the
`"counter"` field. -/
theorem refs_release_runs_on_every_exit_path (r : Refs)
    (body : Refs → GDict → BodyResult GDict) (g : GDict) :
    outState (runWith (fun s => (Refs.enter r, s)) body (Refs.exit r) g)
      = dictSet (bodyState (body (Refs.enter r) g)) "counter" r.init :=
  refs_scope_state_eq r body g

/-- C9: `Refs.exit` returns false for every argument list, so an
exception raised inside a with-scope guarded by a `Refs` handle is never
suppressed: it always propagates to the enclosing scope. -/
theorem refs_exit_always_false_and_propagates :
    (∀ (r : Refs) (b : Bool) (g : GDict), (Refs.exit r b g).2 = false) ∧
    (∀ (r : Refs) (body : Refs → GDict → BodyResult GDict) (g s2 : GDict),
      body (Refs.enter r) g = BodyResult.exc s2 →
      runWith (fun s => (Refs.enter r, s)) body (Refs.exit r) g
        = Outcome.raised (Refs.exit r true s2).1) := by
  constructor
  · intro r b g
    rfl
  · intro r body g s2 h
    have h2 := runWith_exc_eq (fun s => (Refs.enter r, s)) body
      (Refs.exit r) g s2 h
    simpa [Refs.exit] using h2

/-- Witness for C9: a concrete raising body inside a `Refs` scope ends in
a propagated exception. -/
theorem refs_exit_always_false_and_propagates_witness :
    runWith (fun s => (Refs.enter ⟨none, Val.intV 99⟩, s))
      (fun _ _ => BodyResult.exc initG)
      (Refs.exit ⟨none, Val.intV 99⟩) initG
      = Outcome.raised (Refs.exit ⟨none, Val.intV 99⟩ true initG).1 :=
  refs_exit_always_false_and_propagates.2 ⟨none, Val.intV 99⟩
    (fun _ _ => BodyResult.exc initG) initG initG rfl

/-- C10: `acc` and `dec` are exact integer inverses: on a shared state
whose counter is an integer, running `acc n` then `dec n` (or `dec n`
then `acc n`), through any pair of handles, returns the state to exactly
its starting value. -/
theorem acc_dec_exact_inverses (r r' : Refs) (n c : Int) (g : GDict)
    (h : dictGet g "counter" = some (Val.intV c)) :
    (Refs.acc r n g).bind (fun g2 => Refs.dec r' n g2) = some g ∧
    (Refs.dec r n g).bind (fun g2 => Refs.acc r' n g2) = some g := by
  constructor
  · simp [Refs.acc, Refs.dec, h, dictGet_dictSet_self, dictSet_dictSet,
      Int.add_sub_cancel, dictSet_eq_self_of_dictGet g "counter" _ h]
  · simp [Refs.acc, Refs.dec, h, dictGet_dictSet_self, dictSet_dictSet,
      Int.sub_add_cancel, dictSet_eq_self_of_dictGet g "counter" _ h]

/-- Witness for C10 on the notebook's initial state with `n = 5`. -/
theorem acc_dec_exact_inverses_witness :
    (Refs.acc ⟨none, Val.intV 99⟩ 5 initG).bind
        (fun g2 => Refs.dec ⟨none, Val.intV 99⟩ 5 g2) = some initG ∧
    (Refs.dec ⟨none, Val.intV 99⟩ 5 initG).bind
        (fun g2 => Refs.acc ⟨none, Val.intV 99⟩ 5 g2) = some initG :=
  acc_dec_exact_inverses ⟨none, Val.intV 99⟩ ⟨none, Val.intV 99⟩ 5 99
    initG rfl

/-- The shared state after `acc 1` (or a direct increment) from the
initial state: the counter moved from 99 to 100. -/
def gAfterAcc : GDict := dictSet initG "counter" (Val.intV 100)

/-- C4 counterexample: `Refs` captures the counter in `__init__`, not in
`__enter__`. Construct a handle on the initial state (capturing 99), then
mutate the counter to 100 before acquisition: at the moment `__enter__`
runs the counter is 100, yet `__exit__` restores 99, so the restored
value differs from the acquisition-time value. -/
theorem refs_restore_not_acquisition_value_cex :
    Refs.make (some "ref1") initG = some ⟨some "ref1", Val.intV 99⟩ ∧
    Refs.acc ⟨some "ref1", Val.intV 99⟩ 1 initG = some gAfterAcc ∧
    dictGet gAfterAcc "counter" = some (Val.intV 100) ∧
    dictGet (Refs.exit ⟨some "ref1", Val.intV 99⟩ false gAfterAcc).1
      "counter" = some (Val.intV 99) ∧
    some (Val.intV 99) ≠ some (Val.intV 100) :=
  ⟨rfl, rfl, rfl, rfl, by decide⟩

/-- C4 amended: the counter value a `Refs` handle restores at release
time equals the value the shared `"counter"` field had at construction
time (when `__init__` read it), whatever mutations happen between
construction and release; it coincides with the acquisition-time value
only when the counter is unchanged between `__init__` and `__enter__`. -/
theorem refs_restores_construction_time_value (name : Option String)
    (g0 g1 : GDict) (v : Val) (b : Bool) (r : Refs)
    (h0 : dictGet g0 "counter" = some v)
    (hmk : Refs.make name g0 = some r) :
    dictGet (Refs.exit r b g1).1 "counter" = some v := by
  have hr : r = ⟨name, v⟩ := by
    simp [Refs.make, h0] at hmk
    exact hmk.symm
  subst hr
  simp [Refs.exit, dictGet_dictSet_self]

/-- Witness for the amended C4 on the concrete interleaving of the
counterexample. -/
theorem refs_restores_construction_time_value_witness :
    dictGet (Refs.exit ⟨some "ref1", Val.intV 99⟩ false gAfterAcc).1
      "counter" = some (Val.intV 99) :=
  refs_restores_construction_time_value (some "ref1") initG gAfterAcc
    (Val.intV 99) false ⟨some "ref1", Val.intV 99⟩ rfl rfl

/-- C1 counterexample: inside a `ref()` scope on the initial state
(counter 99), run `acc 1` and then raise. The exception is thrown into
the generator at the yield, the restore line after the yield never runs,
and the scope exits with the counter still 100, not its pre-acquisition
value 99. -/
theorem ref_scope_exception_skips_restore_cex :
    dictGet initG "counter" = some (Val.intV 99) ∧
    refWithScope [Mut.acc 1] true initG
      = some (Outcome.raised gAfterAcc) ∧
    dictGet gAfterAcc "counter" = some (Val.intV 100) ∧
    some (Val.intV 100) ≠ some (Val.intV 99) :=
  ⟨rfl, rfl, rfl, by decide⟩

/-- C1 amended: inside a with-scope of a fresh `Refs` handle the shared
counter is restored to its pre-acquisition value for every mutation
sequence whether the body completes normally or raises; inside a `ref()`
scope the same holds when the body completes normally, but not in
general when it raises. -/
theorem scoped_mutation_restored_on_exit :
    (∀ (muts : List Mut) (raises : Bool) (g : GDict) (v : Val),
      dictGet g "counter" = some v →
      ∃ out, refsWithScope muts raises g = some out ∧
        dictGet (outState out) "counter" = some v) ∧
    (∀ (muts : List Mut) (g : GDict) (c : Int),
      dictGet g "counter" = some (Val.intV c) →
      ∃ out, refWithScope muts false g = some out ∧
        dictGet (outState out) "counter" = some (Val.intV c)) := by
  constructor
  · intro muts raises g v h
    have hmk : Refs.make none g = some ⟨none, v⟩ := by
      simp [Refs.make, h]
    refine ⟨runWith (fun s => (Refs.enter ⟨none, v⟩, s))
      (fun _ s => mutBody muts raises s) (Refs.exit ⟨none, v⟩) g, ?_, ?_⟩
    · simp [refsWithScope, hmk]
    · rw [refs_scope_state_eq]
      exact dictGet_dictSet_self _ "counter" _
  · intro muts g c h
    obtain ⟨g2, c2, h2, _⟩ := applyMuts_ok_of_int muts g c h
    have hbody : mutBody muts false g = BodyResult.ok g2 := by
      simp [mutBody, h2]
    refine ⟨runWith (fun s => ((), s)) (fun _ s => mutBody muts false s)
      (refExitStep (Val.intV c)) g, ?_, ?_⟩
    · simp [refWithScope, h]
    · rw [runWith_ok_eq _ _ _ _ g2 hbody]
      simp [outState, refExitStep, dictGet_dictSet_self]

/-- Witness for the amended C1: a `Refs` scope whose body increments the
counter and raises still exits with the counter restored to 99. -/
theorem scoped_mutation_restored_on_exit_witness :
    ∃ out, refsWithScope [Mut.acc 1] true initG = some out ∧
      dictGet (outState out) "counter" = some (Val.intV 99) :=
  scoped_mutation_restored_on_exit.1 [Mut.acc 1] true initG
    (Val.intV 99) rfl

/-- C5: the class-based guard `Refs` and the generator-based guard
`ref()` are behaviourally equivalent when the with-scope is entered
immediately after the guard is created: for every sequence of counter
mutations performed in the body on a shared state with an integer
counter, both scopes produce exactly the same outcome, leaving the
shared mapping in the same final state (the prior counter value captured
on construction, restored on exit). -/
theorem refs_ref_guard_equivalent (muts : List Mut) (g : GDict) (c : Int)
    (h : dictGet g "counter" = some (Val.intV c)) :
    refsWithScope muts false g = refWithScope muts false g := by
  have hmk : Refs.make none g = some ⟨none, Val.intV c⟩ := by
    simp [Refs.make, h]
  obtain ⟨g2, c2, h2, _⟩ := applyMuts_ok_of_int muts g c h
  have hbody : mutBody muts false g = BodyResult.ok g2 := by
    simp [mutBody, h2]
  simp only [refsWithScope, refWithScope, hmk, h, Option.map_some']
  rw [runWith_ok_eq _ _ _ _ g2 hbody, runWith_ok_eq _ _ _ _ g2 hbody]
  simp [Refs.exit, refExitStep]

/-- Witness for C5 on the notebook's initial state with the body
`dec 1; acc 2`. -/
theorem refs_ref_guard_equivalent_witness :
    refsWithScope [Mut.dec 1, Mut.acc 2] false initG
      = refWithScope [Mut.dec 1, Mut.acc 2] false initG :=
  refs_ref_guard_equivalent [Mut.dec 1, Mut.acc 2] initG 99 rfl

/-- C7: the shared mapping holds exactly the two fields `"counter"` and
`"user"` with a numeric counter and a string owner, from the initial
`_G` onward, and every state-modifying operation of the demonstration
preserves this shape: `acc`, `dec`, `__exit__` of a handle constructed
on a well-formed state, and the restore step of `ref()` with a value
captured from a well-formed state (`__init__`, `__enter__` and the
capture before the yield read the state without modifying it). -/
theorem ops_preserve_two_field_shape :
    wellFormed initG ∧
    (∀ (r : Refs) (n : Int) (g g' : GDict),
      wellFormed g → Refs.acc r n g = some g' → wellFormed g') ∧
    (∀ (r : Refs) (n : Int) (g g' : GDict),
      wellFormed g → Refs.dec r n g = some g' → wellFormed g') ∧
    (∀ (name : Option String) (g0 : GDict) (r : Refs) (b : Bool)
      (g : GDict), wellFormed g0 → Refs.make name g0 = some r →
      wellFormed g → wellFormed (Refs.exit r b g).1) ∧
    (∀ (g0 : GDict) (v : Val) (b : Bool) (g : GDict),
      wellFormed g0 → dictGet g0 "counter" = some v →
      wellFormed g → wellFormed (refExitStep v b g).1) := by
  refine ⟨⟨rfl, rfl, rfl⟩, ?_, ?_, ?_, ?_⟩
  · intro r n g g' hg hacc
    obtain ⟨c0, hc0⟩ := (counterIsInt_iff g).mp hg.2.1
    simp [Refs.acc, hc0] at hacc
    subst hacc
    exact wellFormed_dictSet_counter g _ hg
  · intro r n g g' hg hdec
    obtain ⟨c0, hc0⟩ := (counterIsInt_iff g).mp hg.2.1
    simp [Refs.dec, hc0] at hdec
    subst hdec
    exact wellFormed_dictSet_counter g _ hg
  · intro name g0 r b g hg0 hmk hg
    obtain ⟨c0, hc0⟩ := (counterIsInt_iff g0).mp hg0.2.1
    have hr : r = ⟨name, Val.intV c0⟩ := by
      simp [Refs.make, hc0] at hmk
      exact hmk.symm
    subst hr
    simp only [Refs.exit]
    exact wellFormed_dictSet_counter g c0 hg
  · intro g0 v b g hg0 hv hg
    obtain ⟨c0, hc0⟩ := (counterIsInt_iff g0).mp hg0.2.1
    rw [hv] at hc0
    cases b with
    | true => simpa [refExitStep] using hg
    | false =>
        simp only [refExitStep, if_neg Bool.false_ne_true]
        have hvc : v = Val.intV c0 := by
          injection hc0
        subst hvc
        exact wellFormed_dictSet_counter g c0 hg

/-- Witness for C7: `acc 1` from the initial state keeps the two-field
shape. -/
theorem ops_preserve_two_field_shape_witness : wellFormed gAfterAcc :=
  ops_preserve_two_field_shape.2.1 ⟨none, Val.intV 99⟩ 1 initG gAfterAcc
    ⟨rfl, rfl, rfl⟩ rfl

/-- C8: no operation of either demonstration writes any key other than
`"counter"`: `acc`, `dec`, `__exit__` and the restore step of `ref()`
leave every other entry, in particular `"user"`, unchanged, and
`__enter__` returns the handle itself without touching the state. -/
theorem ops_write_only_counter :
    (∀ (r : Refs) (n : Int) (g g' : GDict) (k : String), k ≠ "counter" →
      Refs.acc r n g = some g' → dictGet g' k = dictGet g k) ∧
    (∀ (r : Refs) (n : Int) (g g' : GDict) (k : String), k ≠ "counter" →
      Refs.dec r n g = some g' → dictGet g' k = dictGet g k) ∧
    (∀ (r : Refs) (b : Bool) (g : GDict) (k : String), k ≠ "counter" →
      dictGet (Refs.exit r b g).1 k = dictGet g k) ∧
    (∀ (captured : Val) (b : Bool) (g : GDict) (k : String),
      k ≠ "counter" →
      dictGet (refExitStep captured b g).1 k = dictGet g k) ∧
    (∀ r : Refs, Refs.enter r = r) := by
  refine ⟨?_, ?_, ?_, ?_, fun r => rfl⟩
  · intro r n g g' k hk hacc
    cases hg : dictGet g "counter" with
    | none => simp [Refs.acc, hg] at hacc
    | some v =>
        cases v with
        | strV s => simp [Refs.acc, hg] at hacc
        | intV c =>
            simp [Refs.acc, hg] at hacc
            subst hacc
            exact dictGet_dictSet_ne g "counter" k _ (Ne.symm hk)
  · intro r n g g' k hk hdec
    cases hg : dictGet g "counter" with
    | none => simp [Refs.dec, hg] at hdec
    | some v =>
        cases v with
        | strV s => simp [Refs.dec, hg] at hdec
        | intV c =>
            simp [Refs.dec, hg] at hdec
            subst hdec
            exact dictGet_dictSet_ne g "counter" k _ (Ne.symm hk)
  · intro r b g k hk
    exact dictGet_dictSet_ne g "counter" k _ (Ne.symm hk)
  · intro captured b g k hk
    cases b with
    | true => rfl
    | false =>
        simp only [refExitStep, if_neg Bool.false_ne_true]
        exact dictGet_dictSet_ne g "counter" k _ (Ne.symm hk)

/-- Witness for C8: releasing a handle on the mutated state leaves the
`"user"` entry untouched. -/
theorem ops_write_only_counter_witness :
    dictGet (Refs.exit ⟨none, Val.intV 99⟩ false gAfterAcc).1 "user"
      = dictGet gAfterAcc "user" :=
  ops_write_only_counter.2.2.1 ⟨none, Val.intV 99⟩ false gAfterAcc "user"
    (by decide)
